import Mathlib

/-!
Verification development for the Hyperliquid vault signal service.

The definitions below are a shallow embedding of the Python sources:
`monitoring.py` (PositionMonitor), `position_manager.py` (PositionManager),
`trader.py` (HyperliquidTrader), `db_operations.py` (SignalRepository) and
`models.py` (PositionStatus).  Machine floats are modelled as exact
rationals; the wall clock is an integer timestamp; fallible lookups are
`Option`.
-/

/-- `models.py` `PositionStatus`: the three status constants
`'false'` (pending, no position opened yet), `'open'` and `'close'`. -/
inductive PositionStatus where
  | FALSE
  | OPEN
  | CLOSE
deriving DecidableEq, Repr

/-- The immutable per-signal data used by the exit evaluator
(`models.py` `SignalData`): direction flag
(`signal_data.signal_message.lower() == 'buy'`), the three price levels
and the absolute expiry timestamp `max_exit_time`. -/
structure SignalDataM where
  isBuy : Bool
  tp1 : ℚ
  tp2 : ℚ
  sl : ℚ
  maxExitTime : ℤ
deriving DecidableEq, Repr

/-- Ephemeral trailing state kept by `PositionMonitor` per signal id:
`{'tp1_hit': bool, 'peak': float|None, 'low': float|None}`
(`monitoring.py` line 133). -/
structure TrailState where
  tp1Hit : Bool
  peak : Option ℚ
  low : Option ℚ
deriving DecidableEq, Repr

/-- The fresh trailing state inserted the first cycle a position is seen
(`monitoring.py` line 133). -/
def initTrailState : TrailState := ⟨false, none, none⟩

/-- Which exit condition set `should_close` (the `close_reason` strings of
`monitoring.py`). -/
inductive CloseReason where
  | slHit
  | tp2Hit
  | trailingStop
  | maxTimeReached
deriving DecidableEq, Repr

/-- Result of one evaluation of the exit conditions for one signal:
the `should_close` flag, which condition fired last, and the mutated
trailing state. -/
structure EvalResult where
  shouldClose : Bool
  reason : Option CloseReason
  state : TrailState
deriving DecidableEq, Repr

/-- `monitoring.py` lines 137-161: the BUY branch of the price-based exit
evaluation.  Hard SL first, then hard TP2, otherwise the trailing logic:
arm on TP1 (recording the current price as peak), and once armed update
the peak and exit when the price falls to `peak * (1 - trail_percent)`. -/
def evalPriceExitBuy (trailPercent tp1 tp2 sl price : ℚ) (st : TrailState) :
    EvalResult :=
  if price ≤ sl then ⟨true, some .slHit, st⟩
  else if tp2 ≤ price then ⟨true, some .tp2Hit, st⟩
  else if !st.tp1Hit then
    if tp1 ≤ price then ⟨false, none, { st with tp1Hit := true, peak := some price }⟩
    else ⟨false, none, st⟩
  else
    let pk : ℚ := match st.peak with
      | none => price
      | some p => if p < price then price else p
    let trailStop := pk * (1 - trailPercent)
    if price ≤ trailStop then ⟨true, some .trailingStop, { st with peak := some pk }⟩
    else ⟨false, none, { st with peak := some pk }⟩

/-- `monitoring.py` lines 162-186: the SELL branch, mirror image of the
BUY branch with a running trough (`low`) and trail stop
`low * (1 + trail_percent)`. -/
def evalPriceExitSell (trailPercent tp1 tp2 sl price : ℚ) (st : TrailState) :
    EvalResult :=
  if sl ≤ price then ⟨true, some .slHit, st⟩
  else if price ≤ tp2 then ⟨true, some .tp2Hit, st⟩
  else if !st.tp1Hit then
    if price ≤ tp1 then ⟨false, none, { st with tp1Hit := true, low := some price }⟩
    else ⟨false, none, st⟩
  else
    let lw : ℚ := match st.low with
      | none => price
      | some p => if price < p then price else p
    let trailStop := lw * (1 + trailPercent)
    if trailStop ≤ price then ⟨true, some .trailingStop, { st with low := some lw }⟩
    else ⟨false, none, { st with low := some lw }⟩

/-- `monitoring.py` lines 136-191: full exit evaluation for one price
tick — the direction-specific price checks followed by the time-based
check (`datetime.now(timezone.utc) >= max_exit_time`), which overwrites
both `should_close` and `close_reason` when it holds but leaves the
trailing-state mutations in place. -/
def processExit (isBuy : Bool) (trailPercent tp1 tp2 sl price : ℚ)
    (expired : Bool) (st : TrailState) : EvalResult :=
  let r := if isBuy then evalPriceExitBuy trailPercent tp1 tp2 sl price st
           else evalPriceExitSell trailPercent tp1 tp2 sl price st
  if expired then ⟨true, some .maxTimeReached, r.state⟩ else r

/-- What `PositionMonitor._process_position` did for one signal in one
cycle. -/
inductive PositionAction where
  /-- early return: `signal.signal_data` missing (line 102). -/
  | skipNoData
  /-- early return: `get_current_price` unavailable (line 108). -/
  | skipNoPrice
  /-- lines 113-117: the exchange reports no entry or zero size; the
  signal is marked closed at the current price via
  `signal_repo.close_position`. -/
  | markClosedExternal (exitPrice : ℚ)
  /-- `should_close` fired and `position_manager.close_position`
  succeeded (lines 194-202). -/
  | closedPM (reason : Option CloseReason)
  /-- `should_close` fired but the close attempt failed (line 204). -/
  | closeFailed (reason : Option CloseReason)
  /-- no exit condition fired; the position stays open. -/
  | held
deriving DecidableEq, Repr

/-- The monitor's `_trailing_states` dict, as an insertion-ordered
association list keyed by signal id. -/
abbrev StateMap := List (ℕ × TrailState)

/-- Dict lookup `self._trailing_states.get(sig_id)`. -/
def mapGet (m : StateMap) (k : ℕ) : Option TrailState :=
  match m with
  | [] => none
  | (k', v) :: rest => if k' = k then some v else mapGet rest k

/-- Dict assignment `self._trailing_states[sig_id] = state` (replaces in
place, appends when the key is new). -/
def mapSet (m : StateMap) (k : ℕ) (v : TrailState) : StateMap :=
  match m with
  | [] => [(k, v)]
  | (k', v') :: rest =>
      if k' = k then (k, v) :: rest else (k', v') :: mapSet rest k v

/-- Dict removal `self._trailing_states.pop(sig_id, None)`. -/
def mapPop (m : StateMap) (k : ℕ) : StateMap :=
  match m with
  | [] => []
  | (k', v') :: rest => if k' = k then rest else (k', v') :: mapPop rest k

/-- `PositionMonitor._process_position` (`monitoring.py` lines 97-204)
for one signal: price fetch, exchange-position existence check, get-or-
create of the trailing state, exit evaluation, and on `should_close` the
call to `PositionManager.close_position` (its success is the
`closeSucceeds` input), which on success pops the trailing state.
`szi` is the signed exchange position size (`none` = no entry for the
asset). Returns the action taken and the updated `_trailing_states`. -/
def processPosition (trailPercent : ℚ) (sigId : ℕ) (sd : Option SignalDataM)
    (currentPrice : Option ℚ) (szi : Option ℚ) (now : ℤ)
    (closeSucceeds : Bool) (states : StateMap) : PositionAction × StateMap :=
  match sd with
  | none => (.skipNoData, states)
  | some sd =>
    match currentPrice with
    | none => (.skipNoPrice, states)
    | some price =>
      let sz := szi.getD 0
      if sz = 0 then (.markClosedExternal price, states)
      else
        let st := (mapGet states sigId).getD initTrailState
        let states1 := mapSet states sigId st
        let r := processExit sd.isBuy trailPercent sd.tp1 sd.tp2 sd.sl price
          (decide (sd.maxExitTime ≤ now)) st
        let states2 := mapSet states1 sigId r.state
        if r.shouldClose then
          if closeSucceeds then (.closedPM r.reason, mapPop states2 sigId)
          else (.closeFailed r.reason, states2)
        else (.held, states2)

/-- Successive monitoring cycles for a single open signal: each price
tick is one `_process_position` call; once a cycle closes the signal
(either externally detected or via a successful close), it no longer
appears in `get_open_positions`, so evaluation stops.  Returns the
per-tick action and the `_trailing_states` map after each tick. -/
def runTicks (trailPercent : ℚ) (sigId : ℕ) (sd : SignalDataM) (szi : ℚ)
    (now : ℤ) : List ℚ → StateMap → List (PositionAction × StateMap)
  | [], _ => []
  | p :: ps, states =>
    let r := processPosition trailPercent sigId (some sd) (some p) (some szi)
      now true states
    match r.1 with
    | .markClosedExternal e => [(.markClosedExternal e, r.2)]
    | .closedPM reason => [(.closedPM reason, r.2)]
    | a => (a, r.2) :: runTicks trailPercent sigId sd szi now ps r.2

/-- Result of `PositionManager._retry_with_backoff`
(`position_manager.py` lines 65-90): whether a filled order was
obtained, how many order placements were attempted, and the sleeps
inserted between consecutive attempts. -/
structure RetryResult where
  success : Bool
  placed : ℕ
  delays : List ℚ
deriving DecidableEq, Repr

/-- The body of the `for attempt in range(max_retries)` loop of
`_retry_with_backoff`, from attempt index `attempt` with
`fuel = maxRetries - attempt` iterations left.  `outcomes i = true`
means attempt `i` returned a filled order (`_is_order_successful`);
`false` covers an error status, an unknown status shape, and a raised
exception alike — all retried.  A sleep of `retry_delay * 2 ** attempt`
is inserted only when `attempt < max_retries - 1`. -/
def retryGo (outcomes : ℕ → Bool) (delay : ℚ) (maxRetries : ℕ) :
    ℕ → ℕ → RetryResult
  | _, 0 => ⟨false, 0, []⟩
  | attempt, fuel + 1 =>
    if outcomes attempt then ⟨true, 1, []⟩
    else if attempt + 1 < maxRetries then
      let r := retryGo outcomes delay maxRetries (attempt + 1) fuel
      ⟨r.success, r.placed + 1, delay * 2 ^ attempt :: r.delays⟩
    else ⟨false, 1, []⟩

/-- `PositionManager._retry_with_backoff` run from attempt 0. -/
def retryWithBackoff (outcomes : ℕ → Bool) (delay : ℚ) (maxRetries : ℕ) :
    RetryResult :=
  retryGo outcomes delay maxRetries 0 maxRetries

/-- Outcome of a `PositionManager` open or close call: the boolean the
caller sees, the status value written to the Signal Store (if any write
was issued), and the number of exchange order placements. -/
structure PMResult where
  success : Bool
  dbWrite : Option PositionStatus
  ordersPlaced : ℕ
deriving DecidableEq, Repr

/-- `PositionManager.open_position` (`position_manager.py` lines 92-129):
retries `place_order`; on a fill it writes status `'open'` with the
position details (`dbOk` is the repository's return value); failure of
that write makes the whole call fail. -/
def openPosition (outcomes : ℕ → Bool) (delay : ℚ) (maxRetries : ℕ)
    (dbOk : Bool) : PMResult :=
  let r := retryWithBackoff outcomes delay maxRetries
  if r.success then
    if dbOk then ⟨true, some .OPEN, r.placed⟩ else ⟨false, some .OPEN, r.placed⟩
  else ⟨false, none, r.placed⟩

/-- `PositionManager.close_position` (`position_manager.py` lines
131-180).  `position` is the exchange's signed size for the symbol
(`none` = `get_position` returned no entry).  No entry → return `False`
with no write and no order; zero size → write `'close'` and return
`True` with no order; otherwise fetch a price (`currentPrice`), place
the closing order with retry and on a fill write `'close'` via
`signal_repo.close_position` (`dbOk` its result). -/
def closePosition (position : Option ℚ) (currentPrice : Option ℚ)
    (outcomes : ℕ → Bool) (delay : ℚ) (maxRetries : ℕ) (dbOk : Bool) :
    PMResult :=
  match position with
  | none => ⟨false, none, 0⟩
  | some sz =>
    if sz = 0 then ⟨true, some .CLOSE, 0⟩
    else
      match currentPrice with
      | none => ⟨false, none, 0⟩
      | some _ =>
        let r := retryWithBackoff outcomes delay maxRetries
        if r.success then
          if dbOk then ⟨true, some .CLOSE, r.placed⟩
          else ⟨false, some .CLOSE, r.placed⟩
        else ⟨false, none, r.placed⟩

/-- `HyperliquidTrader.get_min_order_size` (`trader.py` lines 55-69):
one lot, `10 ** (-sz_decimals)`, or the default `0.0001` when the asset
spec is missing. -/
def minOrderSize (szDecimals : Option ℕ) : ℚ :=
  match szDecimals with
  | some d => 1 / 10 ^ d
  | none => 1 / 10 ^ 4

/-- Banker's rounding to an integer, the default rounding mode of
Python's `Decimal.quantize` used in `validate_and_adjust_size`. -/
def roundHalfEven (x : ℚ) : ℤ :=
  if x - ⌊x⌋ < 1 / 2 then ⌊x⌋
  else if 1 / 2 < x - ⌊x⌋ then ⌊x⌋ + 1
  else if 2 ∣ ⌊x⌋ then ⌊x⌋ else ⌊x⌋ + 1

/-- `Decimal(str(size)).quantize(Decimal('10') ** -sz_decimals)`:
round to `d` decimal places, ties to even. -/
def quantize (d : ℕ) (x : ℚ) : ℚ :=
  (roundHalfEven (x * 10 ^ d) : ℚ) / 10 ^ d

/-- `HyperliquidTrader.validate_and_adjust_size` (`trader.py` lines
71-94): bump a sub-minimum size to `min * 1.01`, then round to the
asset's declared size precision (sizes are returned unrounded when the
asset spec is missing). -/
def validateAndAdjustSize (szDecimals : Option ℕ) (size : ℚ) : ℚ :=
  let minSize := minOrderSize szDecimals
  let size1 := if size < minSize then minSize * (101 / 100) else size
  match szDecimals with
  | some d => quantize d size1
  | none => size1

/-- The pair returned by `calculate_position_size`: USD notional and
base-asset size. -/
structure SizeResult where
  usd : ℚ
  size : ℚ
deriving DecidableEq, Repr

/-- `HyperliquidTrader.calculate_position_size` (`trader.py` lines
296-341).  `vaultValue` is the `total_account_value` from
`get_vault_balance` (`none` = balance unavailable, taking the
`$100`-margin fallback at lines 302-305, which skips every minimum-size
adjustment).  On the normal path: margin = value × pct/100, notional =
margin × leverage, size = notional / price; when the notional is below
one lot's notional it is bumped to `min_position_usd * 1.1`; finally
`validate_and_adjust_size` rounds the size. -/
def calculatePositionSize (szDecimals : Option ℕ) (vaultValue : Option ℚ)
    (currentPrice percentage leverage : ℚ) : SizeResult :=
  match vaultValue with
  | none => ⟨100 * leverage, 100 * leverage / currentPrice⟩
  | some total =>
    let marginUsd := total * (percentage / 100)
    let usd0 := marginUsd * leverage
    let size0 := usd0 / currentPrice
    let minO := minOrderSize szDecimals
    let minUsd := minO * currentPrice
    let size1 := if usd0 < minUsd then minUsd * (11 / 10) / currentPrice else size0
    let size2 := validateAndAdjustSize szDecimals size1
    ⟨size2 * currentPrice, size2⟩

/-- The string actions of
`PositionManager.check_existing_position_conflict`. -/
inductive ConflictAction where
  | reject
  | closeAndReverse
deriving DecidableEq, Repr

/-- `PositionManager.check_existing_position_conflict`
(`position_manager.py` lines 243-268).  `query` is the Signal Store
query for open signals on the asset: `Except.error` models the body
raising an exception (caught at line 266, returning `"reject"`);
`Except.ok dirs` gives the direction flags of the open signals, newest
first.  Same direction as the newest → `"reject"`; opposite →
`"close_and_reverse"`; no open signal → no conflict. -/
def checkExistingPositionConflict (query : Except Unit (List Bool))
    (isBuy : Bool) : Option ConflictAction :=
  match query with
  | .error _ => some .reject
  | .ok dirs =>
    match dirs with
    | [] => none
    | latest :: _ => if isBuy = latest then some .reject else some .closeAndReverse

/-- Outcome of `PositionMonitor._process_pending_signal` for the pending
signal itself: whether the conflict check rejected it, the number of
exchange orders placed by this call, and the status written for this
signal (if any). -/
structure PendingResult where
  rejected : Bool
  ordersPlaced : ℕ
  statusWrite : Option PositionStatus
deriving DecidableEq, Repr

/-- `PositionMonitor._process_pending_signal` (`monitoring.py` lines
225-277): conflict check first — `"reject"` returns immediately with no
order and no write; `"close_and_reverse"` first closes the newest open
signal for the asset (the orders `closeExisting` places are counted);
then price fetch (skip on `none`), size calculation and
`PositionManager.open_position`. -/
def processPendingSignal (query : Except Unit (List Bool)) (isBuy : Bool)
    (closeExisting : PMResult) (price : Option ℚ)
    (openOutcomes : ℕ → Bool) (delay : ℚ) (maxRetries : ℕ) (dbOk : Bool) :
    PendingResult :=
  match checkExistingPositionConflict query isBuy with
  | some .reject => ⟨true, 0, none⟩
  | c =>
    let closeOrders := if c = some .closeAndReverse then closeExisting.ordersPlaced else 0
    match price with
    | none => ⟨false, closeOrders, none⟩
    | some _ =>
      let r := openPosition openOutcomes delay maxRetries dbOk
      ⟨false, closeOrders + r.ordersPlaced, r.dbWrite⟩

/-- One signal record as the monitoring loop sees it: id, stored status
and its signal data. -/
structure SigEntry where
  sigId : ℕ
  status : PositionStatus
  sd : Option SignalDataM
deriving DecidableEq, Repr

/-- Per-cycle environment of the monitoring loop: the exchange price and
signed position size per signal, whether a `close_position` call would
succeed, and the current time. -/
structure CycleEnv where
  currentPrice : ℕ → Option ℚ
  szi : ℕ → Option ℚ
  closeSucceeds : ℕ → Bool
  now : ℤ

/-- The status a processed open signal ends the cycle with: the
external-close path and a successful `close_position` both write
`'close'` to the store; every other action leaves it `'open'`. -/
def statusAfterAction (a : PositionAction) : PositionStatus :=
  match a with
  | .markClosedExternal _ => .CLOSE
  | .closedPM _ => .CLOSE
  | _ => .OPEN

/-- One iteration of `PositionMonitor._monitoring_loop`
(`monitoring.py` lines 70-95): fetch `get_open_positions()` — only
signals whose stored status is `'open'` — and run `_process_position`
on each in order, threading `_trailing_states`.  Signals with any other
status are not fetched and so are untouched; the loop body contains no
call to `process_pending_signals`. -/
def monitoringCycle (trailPercent : ℚ) (env : CycleEnv) :
    List SigEntry → StateMap → List SigEntry × StateMap
  | [], m => ([], m)
  | e :: rest, m =>
    if e.status = .OPEN then
      let r := processPosition trailPercent e.sigId e.sd
        (env.currentPrice e.sigId) (env.szi e.sigId) env.now
        (env.closeSucceeds e.sigId) m
      let done := monitoringCycle trailPercent env rest r.2
      ({ e with status := statusAfterAction r.1 } :: done.1, done.2)
    else
      let done := monitoringCycle trailPercent env rest m
      (e :: done.1, done.2)

/-- The Signal Store as a map from signal id to stored status
(`none` = no record with that id). -/
abbrev SignalStore := ℕ → Option PositionStatus

/-- A single-record status write, the effect of
`SignalRepository.update_position_status` / `create_signal` on the
status field. -/
def storeUpdate (s : SignalStore) (id : ℕ) (st : PositionStatus) :
    SignalStore :=
  fun j => if j = id then some st else s j

/-- One core operation's effect on the stored statuses.  Each
constructor is one status write the source can issue, with the guard
under which its caller issues it:

* `create` — `SignalRepository.create_signal` inserts a fresh record
  with status `'false'` (`db_operations.py` lines 19-42).
* `promote` — `PositionManager.open_position` writes `'open'`
  (`position_manager.py` line 117); its only caller is
  `_process_pending_signal`, which takes the signal from
  `get_pending_signals()`, i.e. status `'false'` (`monitoring.py`
  lines 209-218, 267-269).
* `closeOpen` — `'close'` written by `PositionManager.close_position`
  (lines 148, 170) or by `signal_repo.close_position` from
  `_process_position` (line 116) or `sync_positions_with_hyperliquid`
  (line 225); every call site takes the signal from an
  `'open'`-filtered query (`get_open_positions()` at `monitoring.py`
  line 73 and `position_manager.py` line 191,
  `get_signals_by_asset(symbol, OPEN)` at `monitoring.py` line 245).
* `reclose` — the same `'close'` write on an already-closed record
  (e.g. a repeated close racing with the zero-size short-circuit);
  a no-op on the status.
* `skip` — every path that returns without writing a status (rejects,
  failed opens and closes, unavailable prices, exceptions). -/
inductive CoreStep : SignalStore → SignalStore → Prop where
  | create (s : SignalStore) (id : ℕ) (h : s id = none) :
      CoreStep s (storeUpdate s id .FALSE)
  | promote (s : SignalStore) (id : ℕ) (h : s id = some .FALSE) :
      CoreStep s (storeUpdate s id .OPEN)
  | closeOpen (s : SignalStore) (id : ℕ) (h : s id = some .OPEN) :
      CoreStep s (storeUpdate s id .CLOSE)
  | reclose (s : SignalStore) (id : ℕ) (h : s id = some .CLOSE) :
      CoreStep s (storeUpdate s id .CLOSE)
  | skip (s : SignalStore) : CoreStep s s

/-- The allowed single moves of one signal's status:
absent → `'false'` (creation), `'false'` → `'open'` (promotion),
`'open'` → `'close'` (close).  No other move. -/
inductive StatusForward : Option PositionStatus → Option PositionStatus → Prop where
  | createF : StatusForward none (some .FALSE)
  | promoteF : StatusForward (some .FALSE) (some .OPEN)
  | closeF : StatusForward (some .OPEN) (some .CLOSE)

/-- Position of a status along the lifecycle
absent < `'false'` < `'open'` < `'close'`. -/
def statusRank : Option PositionStatus → ℕ
  | none => 0
  | some .FALSE => 1
  | some .OPEN => 2
  | some .CLOSE => 3

/-- Each allowed single status move strictly increases the lifecycle
rank. -/
theorem statusForward_rank_lt {x y : Option PositionStatus}
    (h : StatusForward x y) : statusRank x < statusRank y := by
  cases h <;> simp [statusRank]

/-- One core operation changes each signal's status either not at all or
by one allowed forward move. -/
theorem coreStep_status {a b : SignalStore} (h : CoreStep a b) (id : ℕ) :
    b id = a id ∨ StatusForward (a id) (b id) := by
  cases h with
  | create i hi =>
      by_cases hid : id = i
      · subst hid
        right
        simp only [storeUpdate, if_pos rfl, hi]
        exact .createF
      · left
        simp [storeUpdate, hid]
  | promote i hi =>
      by_cases hid : id = i
      · subst hid
        right
        simp only [storeUpdate, if_pos rfl, hi]
        exact .promoteF
      · left
        simp [storeUpdate, hid]
  | closeOpen i hi =>
      by_cases hid : id = i
      · subst hid
        right
        simp only [storeUpdate, if_pos rfl, hi]
        exact .closeF
      · left
        simp [storeUpdate, hid]
  | reclose i hi =>
      by_cases hid : id = i
      · subst hid
        left
        simp [storeUpdate, hi]
      · left
        simp [storeUpdate, hid]
  | skip => exact Or.inl rfl

/-- Claim C1: along every sequence of core operations (signal creation,
pending-signal promotion, exit-evaluation closes, Position Manager
open/close, reconciliation closes), each signal's status evolves only by
the forward moves absent → pending(`'false'`) → `'open'` → `'close'`:
no operation sequence moves a signal from open or closed back to
pending, from closed back to open, or from pending directly to closed
without passing through open, and the lifecycle rank never decreases. -/
theorem signal_status_transitions_forward_only (s s' : SignalStore)
    (h : Relation.ReflTransGen CoreStep s s') (id : ℕ) :
    Relation.ReflTransGen StatusForward (s id) (s' id) ∧
    statusRank (s id) ≤ statusRank (s' id) := by
  induction h with
  | refl => exact ⟨Relation.ReflTransGen.refl, le_refl _⟩
  | tail hab hbc ih =>
      rcases coreStep_status hbc id with heq | hf
      · rw [heq]
        exact ih
      · exact ⟨ih.1.tail hf, le_trans ih.2 (le_of_lt (statusForward_rank_lt hf))⟩

/-- Witness for C1: a concrete three-operation run (create, promote,
close) of one signal, from the empty store, yields exactly the forward
trajectory absent → pending → open → closed. -/
theorem signal_status_transitions_forward_only_witness :
    Relation.ReflTransGen StatusForward (none : Option PositionStatus)
      (some PositionStatus.CLOSE) ∧
    statusRank (none : Option PositionStatus) ≤
      statusRank (some PositionStatus.CLOSE) := by
  have h0 : CoreStep (fun _ => none)
      (storeUpdate (fun _ => none) 0 .FALSE) :=
    CoreStep.create _ 0 rfl
  have h1 : CoreStep (storeUpdate (fun _ => none) 0 .FALSE)
      (storeUpdate (storeUpdate (fun _ => none) 0 .FALSE) 0 .OPEN) :=
    CoreStep.promote _ 0 rfl
  have h2 : CoreStep (storeUpdate (storeUpdate (fun _ => none) 0 .FALSE) 0 .OPEN)
      (storeUpdate (storeUpdate (storeUpdate (fun _ => none) 0 .FALSE) 0 .OPEN)
        0 .CLOSE) :=
    CoreStep.closeOpen _ 0 rfl
  exact signal_status_transitions_forward_only _ _
    (((Relation.ReflTransGen.refl.tail h0).tail h1).tail h2) 0

/-- Claim C2: with the expiry not yet reached, the exit evaluator checks
conditions in the fixed priority order stop-loss, then take-profit-2,
then trailing, first match winning, for both directions; in particular a
buy tick at or above tp2 (and above sl) fires the TP2 exit with the
trailing state untouched — no trailing arming — even when tp1 was also
crossed at that tick, as in the concrete jump 100 → 131 against
tp1 = 110, tp2 = 130, sl = 90. -/
theorem exit_priority_sl_tp2_trailing (trailPercent tp1 tp2 sl price : ℚ)
    (st : TrailState) :
    (price ≤ sl →
      processExit true trailPercent tp1 tp2 sl price false st =
        ⟨true, some .slHit, st⟩) ∧
    (sl < price → tp2 ≤ price →
      processExit true trailPercent tp1 tp2 sl price false st =
        ⟨true, some .tp2Hit, st⟩) ∧
    (sl < price → price < tp2 →
      (processExit true trailPercent tp1 tp2 sl price false st).reason = none ∨
      (processExit true trailPercent tp1 tp2 sl price false st).reason =
        some .trailingStop) ∧
    (sl ≤ price →
      processExit false trailPercent tp1 tp2 sl price false st =
        ⟨true, some .slHit, st⟩) ∧
    (price < sl → price ≤ tp2 →
      processExit false trailPercent tp1 tp2 sl price false st =
        ⟨true, some .tp2Hit, st⟩) ∧
    (price < sl → tp2 < price →
      (processExit false trailPercent tp1 tp2 sl price false st).reason = none ∨
      (processExit false trailPercent tp1 tp2 sl price false st).reason =
        some .trailingStop) ∧
    processExit true (1 / 50) 110 130 90 131 false initTrailState =
      ⟨true, some .tp2Hit, initTrailState⟩ := by
  refine ⟨?_, ?_, ?_, ?_, ?_, ?_, by decide⟩
  · intro h
    simp [processExit, evalPriceExitBuy, h]
  · intro h1 h2
    simp [processExit, evalPriceExitBuy, not_le.mpr h1, h2]
  · intro h1 h2
    simp only [processExit, evalPriceExitBuy, if_neg (not_le.mpr h1),
      if_neg (not_le.mpr h2), if_false]
    by_cases hb : st.tp1Hit <;> simp [hb] <;> split_ifs <;> simp
  · intro h
    simp [processExit, evalPriceExitSell, h]
  · intro h1 h2
    simp [processExit, evalPriceExitSell, not_le.mpr h1, h2]
  · intro h1 h2
    simp only [processExit, evalPriceExitSell, if_neg (not_le.mpr h1),
      if_neg (not_le.mpr h2), if_false]
    by_cases hb : st.tp1Hit <;> simp [hb] <;> split_ifs <;> simp

/-- Witness for C2: the priority order at a concrete buy tick sitting on
the stop-loss (price 90 = sl). -/
theorem exit_priority_sl_tp2_trailing_witness :
    processExit true (1 / 50) 110 130 90 90 false initTrailState =
      ⟨true, some CloseReason.slHit, initTrailState⟩ :=
  (exit_priority_sl_tp2_trailing (1 / 50) 110 130 90 90 initTrailState).1
    (by decide)

/-- Claim C3: for a buy signal with tp1 = 110, tp2 = 130, sl = 90 and
trailPercent = 0.02, expiry not reached, the tick sequence
100, 108, 111, 120, 117.5 produces no close on the first four ticks —
the 111 tick only arms trailing with peak 111, the 120 tick only raises
the peak to 120 — and exactly one close, on the 117.5 tick (the
trailing stop, since 117.5 ≤ 120 × 0.98 = 117.6). -/
theorem trailing_scenario_single_close_on_fifth_tick :
    runTicks (1 / 50) 1 ⟨true, 110, 130, 90, 1000⟩ 1 0
      [100, 108, 111, 120, 235 / 2] [] =
      [(.held, [(1, ⟨false, none, none⟩)]),
       (.held, [(1, ⟨false, none, none⟩)]),
       (.held, [(1, ⟨true, some 111, none⟩)]),
       (.held, [(1, ⟨true, some 120, none⟩)]),
       (.closedPM (some .trailingStop), [])] := by
  norm_num [runTicks, processPosition, processExit, evalPriceExitBuy,
    mapGet, mapSet, mapPop, initTrailState]

/-- Claim C4: the time-based exit is evaluated after the price-based
conditions and forces a close once the expiry timestamp has passed:
the evaluation returns `should_close` with reason "max exit time
reached" whatever the direction, prices and trailing state, while
keeping the price-based state mutations (e.g. a trailing arm) that the
same cycle produced; at the `_process_position` level an expired open
signal with a live position always gets a close attempt. -/
theorem expiry_forces_close (isBuy : Bool)
    (trailPercent tp1 tp2 sl price : ℚ) (st : TrailState)
    (sigId : ℕ) (sd : SignalDataM) (sz : ℚ) (now : ℤ) (c : Bool)
    (m : StateMap) (hsz : sz ≠ 0) (hexp : sd.maxExitTime ≤ now) :
    processExit isBuy trailPercent tp1 tp2 sl price true st =
      ⟨true, some .maxTimeReached,
        (processExit isBuy trailPercent tp1 tp2 sl price false st).state⟩ ∧
    (processPosition trailPercent sigId (some sd) (some price) (some sz)
        now c m).1 =
      (if c then PositionAction.closedPM (some .maxTimeReached)
       else PositionAction.closeFailed (some .maxTimeReached)) := by
  constructor
  · simp [processExit]
  · simp only [processPosition, Option.getD_some, if_neg hsz,
      decide_eq_true hexp]
    simp [processExit]
    split_ifs <;> rfl

/-- Witness for C4: a concrete expired buy signal holding between tp1
and tp2 is still force-closed by the time check. -/
theorem expiry_forces_close_witness :
    processExit true (1 / 50) 110 130 90 105 true initTrailState =
      ⟨true, some CloseReason.maxTimeReached,
        (processExit true (1 / 50) 110 130 90 105 false initTrailState).state⟩ ∧
    (processPosition (1 / 50) 1 (some ⟨true, 110, 130, 90, 0⟩) (some 105)
        (some 1) 5 true []).1 =
      (if true then PositionAction.closedPM (some .maxTimeReached)
       else PositionAction.closeFailed (some .maxTimeReached)) :=
  expiry_forces_close true (1 / 50) 110 130 90 105 initTrailState 1
    ⟨true, 110, 130, 90, 0⟩ 1 5 true [] (by decide) (by decide)

/-- Counterexample to C8: concrete open buy signal whose trailing state
is armed (peak 111); the exchange reports a zero-size position at the
next tick.  `_process_position` marks it closed at the current price
and returns at once (monitoring.py line 117), *before* the trailing
code: the `_trailing_states` map is left exactly as it was, the armed
entry for signal 1 included — the trailing state is not discarded. -/
theorem external_close_keeps_trailing_state :
    (processPosition (1 / 50) 1 (some ⟨true, 110, 130, 90, 1000⟩)
        (some 100) (some 0) 0 true [(1, ⟨true, some 111, none⟩)]) =
      (PositionAction.markClosedExternal 100,
        [(1, ⟨true, some 111, none⟩)]) ∧
    mapGet (processPosition (1 / 50) 1 (some ⟨true, 110, 130, 90, 1000⟩)
        (some 100) (some 0) 0 true [(1, ⟨true, some 111, none⟩)]).2 1 =
      some ⟨true, some 111, none⟩ := by
  constructor <;> rfl

/-- Claim C8, amended: when the per-cycle evaluation of an open signal
finds the exchange reporting no entry or a zero-size position for the
asset (the price fetch having succeeded), it marks the signal closed
using the current price as exit price, but it does **not** discard the
signal's trailing state: `_trailing_states` is returned unchanged (the
map is only popped on the normal `should_close` close path). -/
theorem external_close_marks_closed_current_price (trailPercent : ℚ)
    (sigId : ℕ) (sd : SignalDataM) (price : ℚ) (szi : Option ℚ)
    (now : ℤ) (c : Bool) (m : StateMap)
    (h : szi = none ∨ szi = some 0) :
    processPosition trailPercent sigId (some sd) (some price) szi now c m =
      (PositionAction.markClosedExternal price, m) := by
  rcases h with h | h <;> subst h <;> simp [processPosition]

/-- Witness for C8: the no-entry case at concrete inputs. -/
theorem external_close_marks_closed_current_price_witness :
    processPosition (1 / 50) 2 (some ⟨false, 95, 80, 120, 1000⟩)
        (some 101) none 0 false [] =
      (PositionAction.markClosedExternal 101, []) :=
  external_close_marks_closed_current_price (1 / 50) 2
    ⟨false, 95, 80, 120, 1000⟩ 101 none 0 false [] (Or.inl rfl)

/-- Counterexample to C5: when the exchange reports *no position entry
at all* for the symbol (`get_position` returns `None`),
`PositionManager.close_position` returns `False` with no status write —
it does not return success and does not set the signal closed
(position_manager.py lines 139-142), contradicting the claim that the
no-entry case behaves like the zero-size case. -/
theorem close_no_entry_returns_failure :
    (closePosition none (some 100) (fun _ => false) 1 3 true).success =
      false ∧
    (closePosition none (some 100) (fun _ => false) 1 3 true).dbWrite =
      none ∧
    (closePosition none (some 100) (fun _ => false) 1 3 true).ordersPlaced =
      0 := by
  exact ⟨rfl, rfl, rfl⟩

/-- Claim C5, amended: `PositionManager.close_position` is idempotent
only for the zero-size case — when the exchange reports a position
entry with zero size, the call returns success and writes status
`'close'` without placing any order; when the exchange has no position
entry at all for the symbol, the call instead returns failure with no
status write and no order. -/
theorem close_idempotent_zero_size (cp : Option ℚ)
    (outcomes : ℕ → Bool) (delay : ℚ) (maxRetries : ℕ) (dbOk : Bool) :
    closePosition (some 0) cp outcomes delay maxRetries dbOk =
      ⟨true, some .CLOSE, 0⟩ ∧
    closePosition none cp outcomes delay maxRetries dbOk =
      ⟨false, none, 0⟩ := by
  constructor
  · simp [closePosition]
  · rfl

/-- Invariant of the `_retry_with_backoff` loop body, proved for every
suffix of the attempt range: at most `fuel` placements happen, the
sleeps between consecutive attempts are exactly
`delay * 2 ^ (attempt index)`, and if every remaining attempt fails the
loop exhausts its budget and reports failure. -/
theorem retryGo_spec (outcomes : ℕ → Bool) (delay : ℚ) (maxRetries : ℕ) :
    ∀ fuel attempt, fuel + attempt = maxRetries →
      (1 ≤ fuel → 1 ≤ (retryGo outcomes delay maxRetries attempt fuel).placed) ∧
      (retryGo outcomes delay maxRetries attempt fuel).placed ≤ fuel ∧
      (retryGo outcomes delay maxRetries attempt fuel).delays =
        (List.range ((retryGo outcomes delay maxRetries attempt fuel).placed - 1)).map
          (fun i => delay * 2 ^ (attempt + i)) ∧
      ((∀ i, attempt ≤ i → i < maxRetries → outcomes i = false) →
        (retryGo outcomes delay maxRetries attempt fuel).success = false ∧
        (retryGo outcomes delay maxRetries attempt fuel).placed = fuel) := by
  intro fuel
  induction fuel with
  | zero =>
      intro attempt _
      refine ⟨by omega, le_refl _, by simp [retryGo], fun _ => ⟨rfl, rfl⟩⟩
  | succ f ih =>
      intro attempt hsum
      by_cases ho : outcomes attempt
      · refine ⟨fun _ => by simp [retryGo, ho], ?_, ?_, ?_⟩
        · simp [retryGo, ho]
        · simp [retryGo, ho]
        · intro hall
          exact absurd (hall attempt (le_refl _) (by omega)) (by simp [ho])
      · by_cases hlt : attempt + 1 < maxRetries
        · have hsum' : f + (attempt + 1) = maxRetries := by omega
          have hf1 : 1 ≤ f := by omega
          obtain ⟨ih1, ih2, ih3, ih4⟩ := ih (attempt + 1) hsum'
          have hres : retryGo outcomes delay maxRetries attempt (f + 1) =
              ⟨(retryGo outcomes delay maxRetries (attempt + 1) f).success,
               (retryGo outcomes delay maxRetries (attempt + 1) f).placed + 1,
               delay * 2 ^ attempt ::
                 (retryGo outcomes delay maxRetries (attempt + 1) f).delays⟩ := by
            simp [retryGo, ho, hlt]
          refine ⟨fun _ => by rw [hres]; exact Nat.le_add_left 1 _, ?_, ?_, ?_⟩
          · rw [hres]
            exact Nat.succ_le_succ ih2
          · rw [hres, ih3]
            have hp1 : 1 ≤ (retryGo outcomes delay maxRetries (attempt + 1) f).placed :=
              ih1 hf1
            obtain ⟨n, hn⟩ : ∃ n,
                (retryGo outcomes delay maxRetries (attempt + 1) f).placed = n + 1 :=
              ⟨_, (Nat.succ_pred_eq_of_pos hp1).symm⟩
            rw [hn]
            simp only [Nat.add_sub_cancel, List.range_succ_eq_map, List.map_cons,
              List.map_map]
            refine congrArg₂ List.cons ?_ ?_
            · rw [Nat.add_zero]
            · have hfc : ((fun i => delay * 2 ^ (attempt + i)) ∘ Nat.succ) =
                  fun i => delay * 2 ^ (attempt + 1 + i) := by
                funext i
                simp only [Function.comp_apply]
                have h2 : attempt + Nat.succ i = attempt + 1 + i := by omega
                rw [h2]
              rw [hfc]
          · intro hall
            have hall' : ∀ i, attempt + 1 ≤ i → i < maxRetries → outcomes i = false :=
              fun i hi => hall i (by omega)
            obtain ⟨hs, hp⟩ := ih4 hall'
            rw [hres]
            refine ⟨hs, ?_⟩
            show (retryGo outcomes delay maxRetries (attempt + 1) f).placed + 1 = f + 1
            omega
        · have hf0 : f = 0 := by omega
          subst hf0
          refine ⟨fun _ => by simp [retryGo, ho, hlt], ?_, ?_, fun _ => ?_⟩
          · simp [retryGo, ho, hlt]
          · simp [retryGo, ho, hlt]
          · exact ⟨by simp [retryGo, ho, hlt], by simp [retryGo, ho, hlt]⟩

/-- Claim C6: a single `_retry_with_backoff` run — hence each single
Position Manager open or close call — places at most `max_retries`
orders; the sleeps between consecutive attempts are exactly
`retry_delay * 2 ^ i` for attempt indices `i = 0, 1, …` in order, so no
sleep follows the final attempt (there are `placed - 1` sleeps); and if
every one of the `max_retries` attempts fails, the run reports failure
after exactly `max_retries` placements. -/
theorem retry_backoff_bounds (outcomes : ℕ → Bool) (delay : ℚ)
    (maxRetries : ℕ) (pos cp : Option ℚ) (dbOk dbOk2 : Bool) :
    (retryWithBackoff outcomes delay maxRetries).placed ≤ maxRetries ∧
    (retryWithBackoff outcomes delay maxRetries).delays =
      (List.range ((retryWithBackoff outcomes delay maxRetries).placed - 1)).map
        (fun i => delay * 2 ^ i) ∧
    (retryWithBackoff outcomes delay maxRetries).delays.length =
      (retryWithBackoff outcomes delay maxRetries).placed - 1 ∧
    ((∀ i, i < maxRetries → outcomes i = false) →
      (retryWithBackoff outcomes delay maxRetries).success = false ∧
      (retryWithBackoff outcomes delay maxRetries).placed = maxRetries) ∧
    (openPosition outcomes delay maxRetries dbOk).ordersPlaced ≤ maxRetries ∧
    (closePosition pos cp outcomes delay maxRetries dbOk2).ordersPlaced ≤
      maxRetries := by
  obtain ⟨_, h2, h3, h4⟩ :=
    retryGo_spec outcomes delay maxRetries maxRetries 0 (by omega)
  have hdel : (retryWithBackoff outcomes delay maxRetries).delays =
      (List.range ((retryWithBackoff outcomes delay maxRetries).placed - 1)).map
        (fun i => delay * 2 ^ i) := by
    unfold retryWithBackoff
    rw [h3]
    have hz : (fun i => delay * 2 ^ (0 + i)) = fun i : ℕ => delay * 2 ^ i := by
      funext i
      rw [Nat.zero_add]
    rw [hz]
  refine ⟨h2, hdel, ?_, fun hall => h4 (fun i _ hi => hall i hi), ?_, ?_⟩
  · rw [hdel]
    simp
  · have hop : (openPosition outcomes delay maxRetries dbOk).ordersPlaced =
        (retryWithBackoff outcomes delay maxRetries).placed := by
      simp only [openPosition]
      split_ifs <;> rfl
    rw [hop]
    exact h2
  · have hcl : (closePosition pos cp outcomes delay maxRetries dbOk2).ordersPlaced = 0 ∨
        (closePosition pos cp outcomes delay maxRetries dbOk2).ordersPlaced =
          (retryWithBackoff outcomes delay maxRetries).placed := by
      rcases pos with _ | sz
      · exact Or.inl rfl
      · rcases cp with _ | p
        · simp only [closePosition]
          split_ifs <;> exact Or.inl rfl
        · simp only [closePosition]
          split_ifs <;> first | exact Or.inl rfl | exact Or.inr rfl
    rcases hcl with h | h <;> rw [h]
    · exact Nat.zero_le _
    · exact h2

/-- Witness for C6: three attempts that all fail, base delay 1 —
failure after exactly 3 placements with sleeps 1, 2 (none after the
last attempt). -/
theorem retry_backoff_bounds_witness :
    (retryWithBackoff (fun _ => false) 1 3).placed ≤ 3 ∧
    (retryWithBackoff (fun _ => false) 1 3).delays =
      (List.range ((retryWithBackoff (fun _ => false) 1 3).placed - 1)).map
        (fun i => 1 * 2 ^ i) ∧
    (retryWithBackoff (fun _ => false) 1 3).delays.length =
      (retryWithBackoff (fun _ => false) 1 3).placed - 1 ∧
    ((∀ i, i < 3 → (fun _ : ℕ => false) i = false) →
      (retryWithBackoff (fun _ => false) 1 3).success = false ∧
      (retryWithBackoff (fun _ => false) 1 3).placed = 3) ∧
    (openPosition (fun _ => false) 1 3 true).ordersPlaced ≤ 3 ∧
    (closePosition (some 2) (some 100) (fun _ => false) 1 3 true).ordersPlaced ≤
      3 :=
  retry_backoff_bounds (fun _ => false) 1 3 (some 2) (some 100) true true

/-- Banker's rounding never drops a quantity that is at least one whole
unit below one. -/
theorem roundHalfEven_ge_one {x : ℚ} (h : 1 ≤ x) : 1 ≤ roundHalfEven x := by
  unfold roundHalfEven
  have hf : (1 : ℤ) ≤ ⌊x⌋ := by
    rw [Int.le_floor]
    exact_mod_cast h
  split_ifs <;> omega

/-- Rounding at `d` decimals keeps a size that is at least one lot
(`10 ^ (-d)`) at or above one lot. -/
theorem quantize_ge_lot (d : ℕ) {x : ℚ} (h : 1 / 10 ^ d ≤ x) :
    1 / 10 ^ d ≤ quantize d x := by
  have h10 : (0 : ℚ) < 10 ^ d := by positivity
  have hx : (1 : ℚ) ≤ x * 10 ^ d := by
    rw [div_le_iff₀ h10] at h
    linarith
  have hr : (1 : ℚ) ≤ (roundHalfEven (x * 10 ^ d) : ℚ) := by
    exact_mod_cast roundHalfEven_ge_one hx
  unfold quantize
  rw [div_le_div_iff₀ h10 h10]
  nlinarith

/-- The asset minimum is strictly positive. -/
theorem minOrderSize_pos (szDecimals : Option ℕ) : 0 < minOrderSize szDecimals := by
  rcases szDecimals with _ | d <;> · unfold minOrderSize; positivity

/-- `validate_and_adjust_size` never returns a size below the asset
minimum: a sub-minimum input is bumped to `min * 1.01` first, and the
final rounding at the declared precision cannot drop a sized lot below
one lot. -/
theorem validateAndAdjustSize_ge_min (szDecimals : Option ℕ) (size : ℚ) :
    minOrderSize szDecimals ≤ validateAndAdjustSize szDecimals size := by
  have hpos := minOrderSize_pos szDecimals
  have hge : minOrderSize szDecimals ≤
      (if size < minOrderSize szDecimals
       then minOrderSize szDecimals * (101 / 100) else size) := by
    split_ifs with h
    · nlinarith
    · exact not_lt.mp h
  unfold validateAndAdjustSize
  rcases szDecimals with _ | d
  · exact hge
  · exact quantize_ge_lot d hge

/-- Counterexample to C7: with the vault balance unavailable the
fallback path of `calculate_position_size` (trader.py lines 302-305)
returns `(100 * leverage) / price` with no minimum-size adjustment:
for an asset with 0 size decimals (minimum order size 1), price 4000,
10 % risk and 2× leverage it returns size 200 / 4000 = 1/20, strictly
below the minimum — the claim's "holds on every return path, including
the fallback paths" is false. -/
theorem fallback_size_below_minimum :
    (calculatePositionSize (some 0) none 4000 10 2).size = 1 / 20 ∧
    (calculatePositionSize (some 0) none 4000 10 2).size <
      minOrderSize (some 0) := by
  constructor <;> norm_num [calculatePositionSize, minOrderSize]

/-- Claim C7, amended: on the normal path of `calculate_position_size`
(vault balance available) the returned size is never below the asset's
minimum order size, and whenever the naive percentage-of-balance
notional falls below the minimum notional, the returned size is exactly
`minimum × 1.1` passed through the final precision rounding
(`validate_and_adjust_size`); the fallback path taken when the balance
is unavailable does not enforce the minimum. -/
theorem calc_position_size_min_enforced (szDecimals : Option ℕ)
    (total price pct lev : ℚ) (hp : 0 < price) :
    minOrderSize szDecimals ≤
      (calculatePositionSize szDecimals (some total) price pct lev).size ∧
    (total * (pct / 100) * lev < minOrderSize szDecimals * price →
      (calculatePositionSize szDecimals (some total) price pct lev).size =
        validateAndAdjustSize szDecimals
          (minOrderSize szDecimals * (11 / 10))) := by
  constructor
  · simp only [calculatePositionSize]
    exact validateAndAdjustSize_ge_min szDecimals _
  · intro hlt
    simp only [calculatePositionSize, if_pos hlt]
    congr 1
    field_simp
    ring

/-- Witness for C7: zero balance, price 4000, asset with 0 size
decimals — the naive size is below minimum and the result is the
rounded `minimum × 1.1`, at or above the minimum. -/
theorem calc_position_size_min_enforced_witness :
    minOrderSize (some 0) ≤
      (calculatePositionSize (some 0) (some 0) 4000 10 2).size ∧
    ((0 : ℚ) * (10 / 100) * 2 < minOrderSize (some 0) * 4000 →
      (calculatePositionSize (some 0) (some 0) 4000 10 2).size =
        validateAndAdjustSize (some 0) (minOrderSize (some 0) * (11 / 10))) :=
  calc_position_size_min_enforced (some 0) 0 4000 10 2 (by decide)

/-- A processed open signal ends a cycle `'open'` or `'close'`. -/
theorem statusAfterAction_open_or_close (a : PositionAction) :
    statusAfterAction a = .OPEN ∨ statusAfterAction a = .CLOSE := by
  cases a <;> simp [statusAfterAction]

/-- Counterexample to C9: a concrete monitoring-loop cycle over a store
holding one pending signal, in an environment where promotion would
succeed (price available, no conflicting position): the cycle returns
the store unchanged — the pending signal is not promoted, because
`_monitoring_loop` only iterates `get_open_positions()` and never calls
`process_pending_signals`. -/
theorem monitoring_cycle_never_promotes_pending :
    monitoringCycle (1 / 50)
      ⟨fun _ => some 100, fun _ => some 1, fun _ => true, 0⟩
      [⟨1, .FALSE, some ⟨true, 110, 130, 90, 1000⟩⟩] [] =
      ([⟨1, .FALSE, some ⟨true, 110, 130, 90, 1000⟩⟩], []) := by
  rfl

/-- Claim C9, amended: each cycle of the monitoring loop performs only
the open-position exit pass: every signal whose stored status is not
`'open'` (pending ones included) is left exactly as it was, and every
`'open'` signal is exit-evaluated, ending the cycle `'open'` or
`'close'` with its id and data intact.  Pending-signal promotion lives
in the separate `process_pending_signals` entry point, which the loop
does not invoke. -/
theorem monitoring_cycle_open_pass_only (trailPercent : ℚ) (env : CycleEnv)
    (sigs : List SigEntry) (m : StateMap) :
    List.Forall₂ (fun e e' =>
        (e.status ≠ .OPEN → e' = e) ∧
        (e.status = .OPEN →
          e'.status = .OPEN ∨ e'.status = .CLOSE) ∧
        e'.sigId = e.sigId ∧ e'.sd = e.sd)
      sigs (monitoringCycle trailPercent env sigs m).1 := by
  induction sigs generalizing m with
  | nil => exact List.Forall₂.nil
  | cons e rest ih =>
      by_cases he : e.status = .OPEN
      · simp only [monitoringCycle, if_pos he]
        refine List.Forall₂.cons ⟨fun hne => absurd he hne, fun _ => ?_, rfl, rfl⟩ (ih _)
        exact statusAfterAction_open_or_close _
      · simp only [monitoringCycle, if_neg he]
        exact List.Forall₂.cons ⟨fun _ => rfl, fun h => absurd h he, rfl, rfl⟩ (ih _)

/-- Claim C10: when the Signal Store query inside
`check_existing_position_conflict` raises, the handler returns
`"reject"`, so `_process_pending_signal` skips the pending signal with
no order placed and no status written — the very same outcome as a
genuine same-direction conflict: at the promotion step the two are
indistinguishable. -/
theorem conflict_store_error_rejects (isBuy : Bool) (closeExisting : PMResult)
    (price : Option ℚ) (openOutcomes : ℕ → Bool) (delay : ℚ)
    (maxRetries : ℕ) (dbOk : Bool) :
    checkExistingPositionConflict (Except.error ()) isBuy =
      some ConflictAction.reject ∧
    processPendingSignal (Except.error ()) isBuy closeExisting price
        openOutcomes delay maxRetries dbOk = ⟨true, 0, none⟩ ∧
    processPendingSignal (Except.ok [isBuy]) isBuy closeExisting price
        openOutcomes delay maxRetries dbOk = ⟨true, 0, none⟩ ∧
    processPendingSignal (Except.error ()) isBuy closeExisting price
        openOutcomes delay maxRetries dbOk =
      processPendingSignal (Except.ok [isBuy]) isBuy closeExisting price
        openOutcomes delay maxRetries dbOk := by
  have hok : processPendingSignal (Except.ok [isBuy]) isBuy closeExisting price
      openOutcomes delay maxRetries dbOk = ⟨true, 0, none⟩ := by
    simp [processPendingSignal, checkExistingPositionConflict]
  exact ⟨rfl, rfl, hok, by rw [hok]; rfl⟩
